import Mathlib

/-!
Formalisation of the token authenticator of `src/main.py` (functions
`make_token` and `parse_token`).

Modelling choices:

* The keyed digest `hashlib.sha256((payload + SECRET).encode()).hexdigest()`
  is an external library call; it is modelled as an abstract function
  `digest : String → String` (the process-wide `SECRET` is absorbed into
  `digest`, so "same Secret at issue and verify" means "same `digest`").
  Facts that depend on the digest (its hex output contains no `'|'`;
  distinct payloads give distinct digests) appear as explicit hypotheses.
* The system clock `int(datetime.now(timezone.utc).timestamp())` is modelled
  as a natural number of seconds since the epoch, passed explicitly.
* Python `str.split(sep)` for the one-character separator `"|"` is modelled
  by `splitOnChar`; Python `int(str)` by `pyInt`; Python `str(int)` on the
  non-negative `expiry` by `natToDecimal`.
* The `try/except` in `parse_token` catches the `ValueError` of tuple
  unpacking (field count ≠ 3) and of `int(expiry)`; both are the `none`
  (resp. `malformed`) branches below.
-/

namespace TokenAuth

/-- Model of Python `str.split(sep)` restricted to a one-character separator:
`"".split("|") = [""]`, `"a||b".split("|") = ["a", "", "b"]`. -/
def splitOnChar (d : Char) : List Char → List (List Char)
  | [] => [[]]
  | c :: cs =>
    if c = d then [] :: splitOnChar d cs
    else
      match splitOnChar d cs with
      | [] => [[c]]
      | w :: ws => (c :: w) :: ws

/-- One step of accumulating a decimal digit into a value. -/
def decStep (a : Nat) (c : Char) : Nat := a * 10 + (c.toNat - 48)

/-- Digit-and-underscore body of a Python integer literal: digits with single
underscores allowed between digits (`"1_0"` is `10`, `"1_"`, `"1__0"` fail). -/
def pyDigitsVal : List Char → Nat → Option Nat
  | [], a => some a
  | c :: cs, a =>
    if c = '_' then
      match cs with
      | [] => none
      | c2 :: cs2 => if c2.isDigit then pyDigitsVal cs2 (decStep a c2) else none
    else if c.isDigit then pyDigitsVal cs (decStep a c) else none

/-- The unsigned body of a Python `int(str)` argument: non-empty, must not
start with an underscore. -/
def pyBody : List Char → Option Nat
  | [] => none
  | c :: cs => if c = '_' then none else pyDigitsVal (c :: cs) 0

/-- Strip leading and trailing whitespace, as Python `str.strip()` does
before integer conversion. -/
def stripChars (cs : List Char) : List Char :=
  ((cs.dropWhile Char.isWhitespace).reverse.dropWhile Char.isWhitespace).reverse

/-- Model of Python `int(s)` on strings: optional surrounding whitespace, an
optional sign, then a digit body; `none` models the `ValueError`. -/
def pyInt (s : String) : Option Int :=
  match stripChars s.data with
  | [] => none
  | c :: cs =>
    if c = '+' then (pyBody cs).map (fun n => (n : Int))
    else if c = '-' then (pyBody cs).map (fun n => -(n : Int))
    else (pyBody (c :: cs)).map (fun n => (n : Int))

/-- Digits of `n` in base 10, most significant first, prepended to `acc`.
The fuel argument makes the recursion structural; `fuel > n` suffices. -/
def natToDecimalAux : Nat → Nat → List Char → List Char
  | 0, _, acc => acc
  | fuel + 1, n, acc =>
    if n < 10 then Char.ofNat (48 + n % 10) :: acc
    else natToDecimalAux fuel (n / 10) (Char.ofNat (48 + n % 10) :: acc)

/-- Model of Python `str(n)` (equivalently the f-string `f"{n}"`) for the
non-negative integer `expiry`. -/
def natToDecimal (n : Nat) : String :=
  String.mk (natToDecimalAux (n + 1) n [])

/-- Source `make_token` (src/main.py lines 45–50): the credential is
`user_id|expiry|signature` where `expiry = now + 24h` in epoch seconds and
`signature` is the keyed digest of `user_id|expiry`. -/
def make_token (digest : String → String) (user_id : String) (now : Nat) : String :=
  let expiry := now + 86400
  let payload := user_id ++ "|" ++ natToDecimal expiry
  let signature := digest payload
  payload ++ "|" ++ signature

/-- Source `parse_token` (src/main.py lines 53–63): split on `"|"` into
exactly three fields (else the unpacking `ValueError` is caught, `None`),
recompute and compare the signature (`None` on mismatch), parse `expiry`
(`ValueError` caught, `None`), reject stale tokens (`None` when
`expiry < now`), otherwise return the user id. -/
def parse_token (digest : String → String) (token : String) (now : Nat) : Option String :=
  match splitOnChar '|' token.data with
  | [user_id, expiry, sig] =>
    if digest (String.mk user_id ++ "|" ++ String.mk expiry) ≠ String.mk sig then none
    else
      match pyInt (String.mk expiry) with
      | none => none
      | some ev => if ev < (now : Int) then none else some (String.mk user_id)
  | _ => none

/-- The spec's three failure kinds (`Malformed`, `Tampered`, `Expired`),
plus success. -/
inductive VerifyResult where
  | ok (user_id : String)
  | malformed
  | tampered
  | expired
deriving DecidableEq

/-- Instrumented `parse_token`: identical control flow, but each failing
branch of the source is tagged with the spec's error kind for it — field
count ≠ 3 (line 55) and unparseable expiry (line 59's `int`) are
`Malformed`, the signature mismatch (lines 57–58) is `Tampered`, and the
staleness rejection (lines 59–60) is `Expired`.  `parse_token` is its
erasure (`parse_token_eq_toOption` below). -/
def parse_token_kind (digest : String → String) (token : String) (now : Nat) : VerifyResult :=
  match splitOnChar '|' token.data with
  | [user_id, expiry, sig] =>
    if digest (String.mk user_id ++ "|" ++ String.mk expiry) ≠ String.mk sig then .tampered
    else
      match pyInt (String.mk expiry) with
      | none => .malformed
      | some ev => if ev < (now : Int) then .expired else .ok (String.mk user_id)
  | _ => .malformed

/-- Forget the error kind, keeping only the `Optional[str]` shape of the
source's return value. -/
def VerifyResult.toOption : VerifyResult → Option String
  | .ok u => some u
  | _ => none

/-- Rebuilding a string from its character list is the identity. -/
theorem mk_data (s : String) : String.mk s.data = s := rfl

/-- The split of a list is never the empty list of segments. -/
theorem splitOnChar_ne_nil (d : Char) (cs : List Char) : splitOnChar d cs ≠ [] := by
  cases cs with
  | nil => simp [splitOnChar]
  | cons c cs =>
    simp only [splitOnChar]
    by_cases h : c = d
    · simp [h]
    · simp only [if_neg h]
      cases hs : splitOnChar d cs <;> simp

/-- Splitting a list that does not contain the separator yields one segment. -/
theorem splitOnChar_of_not_mem (d : Char) (cs : List Char) (h : d ∉ cs) :
    splitOnChar d cs = [cs] := by
  induction cs with
  | nil => rfl
  | cons c cs ih =>
    simp only [List.mem_cons, not_or] at h
    have hcd : ¬ c = d := fun hc => h.1 hc.symm
    simp only [splitOnChar, if_neg hcd, ih h.2]

/-- Unfolding rule for the split at a non-separator head. -/
theorem splitOnChar_cons_of_ne (d c : Char) (cs : List Char) (h : ¬ c = d) :
    splitOnChar d (c :: cs) =
      match splitOnChar d cs with
      | [] => [[c]]
      | w :: ws => (c :: w) :: ws := by
  simp [splitOnChar, if_neg h]

/-- Splitting past a separator occurrence peels off the separator-free
portion before it as the first segment. -/
theorem splitOnChar_append (d : Char) (a rest : List Char) (h : d ∉ a) :
    splitOnChar d (a ++ d :: rest) = a :: splitOnChar d rest := by
  induction a with
  | nil => simp [splitOnChar]
  | cons c a ih =>
    simp only [List.mem_cons, not_or] at h
    have hcd : ¬ c = d := fun hc => h.1 hc.symm
    rw [List.cons_append, splitOnChar_cons_of_ne d c _ hcd, ih h.2]

/-- The number of segments is one more than the number of separators. -/
theorem splitOnChar_length (d : Char) (cs : List Char) :
    (splitOnChar d cs).length = cs.count d + 1 := by
  induction cs with
  | nil => simp [splitOnChar]
  | cons c cs ih =>
    by_cases h : c = d
    · simp [splitOnChar, h, ih, List.count_cons]
    · simp only [splitOnChar, if_neg h]
      rcases hs : splitOnChar d cs with _ | ⟨w, ws⟩
      · exact absurd hs (splitOnChar_ne_nil d cs)
      · rw [hs] at ih
        simp only [List.length_cons] at ih ⊢
        rw [List.count_cons]
        simp [h, ih]

/-- Computation rule for `parse_token_kind` once the split is known. -/
theorem parse_token_kind_of_split (digest : String → String) (token : String) (now : Nat)
    (a b c : List Char) (hs : splitOnChar '|' token.data = [a, b, c]) :
    parse_token_kind digest token now =
      if digest (String.mk a ++ "|" ++ String.mk b) ≠ String.mk c then .tampered
      else
        match pyInt (String.mk b) with
        | none => .malformed
        | some ev => if ev < (now : Int) then .expired else .ok (String.mk a) := by
  unfold parse_token_kind
  rw [hs]

/-- Any split whose segment count is not three takes the catch-all branch. -/
theorem parse_token_kind_malformed_of_length (digest : String → String) (token : String)
    (now : Nat) (h : (splitOnChar '|' token.data).length ≠ 3) :
    parse_token_kind digest token now = .malformed := by
  unfold parse_token_kind
  rcases hs : splitOnChar '|' token.data with _ | ⟨a, _ | ⟨b, _ | ⟨c, _ | ⟨e, l⟩⟩⟩⟩ <;>
    first
      | rfl
      | (exact absurd (by rw [hs]; rfl) h)

/-- `parse_token` is `parse_token_kind` with the error kind forgotten: every
failing branch of the source returns the same `None`. -/
theorem parse_token_eq_toOption (digest : String → String) (token : String) (now : Nat) :
    parse_token digest token now = (parse_token_kind digest token now).toOption := by
  unfold parse_token parse_token_kind
  rcases hs : splitOnChar '|' token.data with _ | ⟨a, _ | ⟨b, _ | ⟨c, _ | ⟨e, l⟩⟩⟩⟩ <;>
    simp only [VerifyResult.toOption]
  by_cases hd : digest (String.mk a ++ "|" ++ String.mk b) ≠ String.mk c
  · simp [hd, VerifyResult.toOption]
  · simp only [if_neg hd]
    rcases pyInt (String.mk b) with _ | ev
    · simp [VerifyResult.toOption]
    · by_cases he : ev < (now : Int) <;> simp [he, VerifyResult.toOption]

/-- Characters produced by `natToDecimalAux` are decimal digit characters. -/
def GoodDigit (c : Char) : Prop := ∃ k, k < 10 ∧ c = Char.ofNat (48 + k)

theorem digitChar_toNat : ∀ k, k < 10 → (Char.ofNat (48 + k)).toNat = 48 + k := by decide

theorem digitChar_isDigit : ∀ k, k < 10 → (Char.ofNat (48 + k)).isDigit = true := by decide

theorem digitChar_not_ws : ∀ k, k < 10 → (Char.ofNat (48 + k)).isWhitespace = false := by
  decide

theorem digitChar_ne_bar : ∀ k, k < 10 → Char.ofNat (48 + k) ≠ '|' := by decide

theorem digitChar_ne_plus : ∀ k, k < 10 → Char.ofNat (48 + k) ≠ '+' := by decide

theorem digitChar_ne_minus : ∀ k, k < 10 → Char.ofNat (48 + k) ≠ '-' := by decide

theorem digitChar_ne_underscore : ∀ k, k < 10 → Char.ofNat (48 + k) ≠ '_' := by decide

/-- All characters written out by `natToDecimalAux` are digit characters. -/
theorem natToDecimalAux_good (fuel : Nat) :
    ∀ (n : Nat) (acc : List Char), (∀ c ∈ acc, GoodDigit c) →
      ∀ c ∈ natToDecimalAux fuel n acc, GoodDigit c := by
  induction fuel with
  | zero => intro n acc hacc c hc; exact hacc c hc
  | succ fuel ih =>
    intro n acc hacc c hc
    have hgood : GoodDigit (Char.ofNat (48 + n % 10)) :=
      ⟨n % 10, Nat.mod_lt n (by omega), rfl⟩
    have hacc2 : ∀ x ∈ Char.ofNat (48 + n % 10) :: acc, GoodDigit x := by
      intro x hx
      rcases List.mem_cons.1 hx with h | h
      · exact h ▸ hgood
      · exact hacc x h
    simp only [natToDecimalAux] at hc
    by_cases h10 : n < 10
    · rw [if_pos h10] at hc
      exact hacc2 c hc
    · rw [if_neg h10] at hc
      exact ih (n / 10) _ hacc2 c hc

/-- The accumulator of `natToDecimalAux` is a plain suffix of its result. -/
theorem natToDecimalAux_append (fuel : Nat) :
    ∀ (n : Nat) (acc : List Char),
      natToDecimalAux fuel n acc = natToDecimalAux fuel n [] ++ acc := by
  induction fuel with
  | zero => intro n acc; rfl
  | succ fuel ih =>
    intro n acc
    by_cases h10 : n < 10
    · simp [natToDecimalAux, if_pos h10]
    · simp only [natToDecimalAux, if_neg h10]
      rw [ih (n / 10) (Char.ofNat (48 + n % 10) :: acc),
          ih (n / 10) (Char.ofNat (48 + n % 10) :: [])]
      simp

/-- With at least one unit of fuel the digit writer emits at least one digit. -/
theorem natToDecimalAux_ne_nil (fuel n : Nat) (acc : List Char) :
    natToDecimalAux (fuel + 1) n acc ≠ [] := by
  simp only [natToDecimalAux]
  by_cases h10 : n < 10
  · simp [h10]
  · rw [if_neg h10, natToDecimalAux_append]
    simp

/-- Folding the digits of `n` back into a value recovers `n`, given enough
fuel. -/
theorem natToDecimalAux_val (fuel : Nat) :
    ∀ n : Nat, n < fuel → (natToDecimalAux fuel n []).foldl decStep 0 = n := by
  induction fuel with
  | zero => intro n h; omega
  | succ fuel ih =>
    intro n hn
    by_cases h10 : n < 10
    · simp only [natToDecimalAux, if_pos h10, List.foldl_cons, List.foldl_nil, decStep,
        digitChar_toNat (n % 10) (by omega)]
      omega
    · simp only [natToDecimalAux, if_neg h10]
      rw [natToDecimalAux_append, List.foldl_append, ih (n / 10) (by omega)]
      simp only [List.foldl_cons, List.foldl_nil, decStep,
        digitChar_toNat (n % 10) (by omega)]
      omega

/-- On a string of digit characters the Python digit-body parser is the plain
base-10 left fold. -/
theorem pyDigitsVal_of_digits :
    ∀ (cs : List Char) (a : Nat), (∀ c ∈ cs, c.isDigit = true) →
      pyDigitsVal cs a = some (cs.foldl decStep a) := by
  intro cs
  induction cs with
  | nil => intro a _; rfl
  | cons c cs ih =>
    intro a h
    have hc : c.isDigit = true := h c (List.mem_cons_self c cs)
    have hcu : ¬ c = '_' := by
      intro he
      subst he
      exact absurd hc (by decide)
    rw [pyDigitsVal.eq_def]
    simp only [if_neg hcu, if_pos hc, List.foldl_cons]
    exact ih (decStep a c) (fun x hx => h x (List.mem_cons_of_mem c hx))

/-- Dropping the prefix satisfying `p` does nothing when no element of the
list satisfies `p`. -/
theorem dropWhile_eq_self (p : Char → Bool) (cs : List Char)
    (h : ∀ c ∈ cs, p c = false) : cs.dropWhile p = cs := by
  cases cs with
  | nil => rfl
  | cons c cs => simp [List.dropWhile_cons, h c (List.mem_cons_self c cs)]

/-- Stripping whitespace does nothing on a whitespace-free list. -/
theorem stripChars_eq_self (cs : List Char) (h : ∀ c ∈ cs, c.isWhitespace = false) :
    stripChars cs = cs := by
  unfold stripChars
  rw [dropWhile_eq_self _ _ h,
      dropWhile_eq_self _ _ (fun c hc => h c (List.mem_reverse.1 hc))]
  exact List.reverse_reverse cs

/-- Python `int` undoes Python `str` on a natural number. -/
theorem pyInt_natToDecimal (n : Nat) : pyInt (natToDecimal n) = some (n : Int) := by
  have hgood := natToDecimalAux_good (n + 1) n [] (by simp)
  have hdig : ∀ c ∈ natToDecimalAux (n + 1) n [], c.isDigit = true := by
    intro c hc
    obtain ⟨k, hk, rfl⟩ := hgood c hc
    exact digitChar_isDigit k hk
  have hws : ∀ c ∈ natToDecimalAux (n + 1) n [], c.isWhitespace = false := by
    intro c hc
    obtain ⟨k, hk, rfl⟩ := hgood c hc
    exact digitChar_not_ws k hk
  have hval : pyDigitsVal (natToDecimalAux (n + 1) n []) 0 = some n := by
    rw [pyDigitsVal_of_digits _ 0 hdig, natToDecimalAux_val (n + 1) n (by omega)]
  unfold pyInt natToDecimal
  rw [show (String.mk (natToDecimalAux (n + 1) n [])).data = natToDecimalAux (n + 1) n []
        from rfl,
      stripChars_eq_self _ hws]
  rcases hl : natToDecimalAux (n + 1) n [] with _ | ⟨c, cs⟩
  · exact absurd hl (natToDecimalAux_ne_nil n n [])
  · obtain ⟨k, hk, rfl⟩ := hgood c (by rw [hl]; exact List.mem_cons_self _ _)
    rw [hl] at hval
    simp only [if_neg (digitChar_ne_plus k hk), if_neg (digitChar_ne_minus k hk), pyBody,
      if_neg (digitChar_ne_underscore k hk), hval, Option.map_some']
    rfl

/-- Distinct naturals print to distinct decimal strings. -/
theorem natToDecimal_inj (a b : Nat) (h : natToDecimal a = natToDecimal b) : a = b := by
  have ha := pyInt_natToDecimal a
  rw [h, pyInt_natToDecimal b] at ha
  simpa using ha.symm

/-- The decimal string of a natural number never contains the delimiter. -/
theorem natToDecimal_no_bar (n : Nat) : '|' ∉ (natToDecimal n).data := by
  intro hmem
  obtain ⟨k, hk, hc⟩ :=
    natToDecimalAux_good (n + 1) n [] (by simp) '|'
      (by exact hmem)
  exact digitChar_ne_bar k hk hc.symm

/-- Character data of a three-field credential string. -/
theorem three_field_data (u e g : String) :
    (u ++ "|" ++ e ++ "|" ++ g).data = u.data ++ '|' :: (e.data ++ '|' :: g.data) := by
  have hbar : ("|" : String).data = ['|'] := rfl
  simp [String.data_append, hbar]

/-- Splitting a credential whose three fields are delimiter-free recovers
exactly the three fields. -/
theorem splitOnChar_three (u e g : String) (hu : '|' ∉ u.data) (he : '|' ∉ e.data)
    (hg : '|' ∉ g.data) :
    splitOnChar '|' (u ++ "|" ++ e ++ "|" ++ g).data = [u.data, e.data, g.data] := by
  rw [three_field_data, splitOnChar_append _ _ _ hu, splitOnChar_append _ _ _ he,
      splitOnChar_of_not_mem _ _ hg]

/-- Behaviour of the instrumented verifier on a well-delimited three-field
credential: tampered unless the recomputed digest matches, then malformed
unless the expiry parses, then expired on staleness, else success. -/
theorem parse_token_kind_parts (digest : String → String) (u e g : String) (now : Nat)
    (hu : '|' ∉ u.data) (he : '|' ∉ e.data) (hg : '|' ∉ g.data) :
    parse_token_kind digest (u ++ "|" ++ e ++ "|" ++ g) now =
      if digest (u ++ "|" ++ e) = g then
        match pyInt e with
        | none => VerifyResult.malformed
        | some ev => if ev < (now : Int) then VerifyResult.expired else VerifyResult.ok u
      else VerifyResult.tampered := by
  rw [parse_token_kind_of_split digest _ now u.data e.data g.data
      (splitOnChar_three u e g hu he hg)]
  simp only [mk_data]
  by_cases hd : digest (u ++ "|" ++ e) = g
  · simp [hd]
  · simp [hd]

/-- The same computation rule for the plain verifier. -/
theorem parse_token_parts (digest : String → String) (u e g : String) (now : Nat)
    (hu : '|' ∉ u.data) (he : '|' ∉ e.data) (hg : '|' ∉ g.data) :
    parse_token digest (u ++ "|" ++ e ++ "|" ++ g) now =
      if digest (u ++ "|" ++ e) = g then
        match pyInt e with
        | none => none
        | some ev => if ev < (now : Int) then none else some u
      else none := by
  rw [parse_token_eq_toOption, parse_token_kind_parts digest u e g now hu he hg]
  by_cases hd : digest (u ++ "|" ++ e) = g
  · simp only [if_pos hd]
    rcases pyInt e with _ | ev
    · rfl
    · by_cases hev : ev < (now : Int) <;> simp [hev, VerifyResult.toOption]
  · simp [hd, VerifyResult.toOption]

/-- `make_token` written out: subject, decimal expiry `now + 24h`, and the
digest of the payload, joined by the delimiter. -/
theorem make_token_eq (digest : String → String) (user_id : String) (now : Nat) :
    make_token digest user_id now =
      user_id ++ "|" ++ natToDecimal (now + 86400) ++ "|" ++
        digest (user_id ++ "|" ++ natToDecimal (now + 86400)) := rfl

/-- Core round trip: a freshly issued credential for a delimiter-free
subject id verifies to that subject id at any time up to its expiry. -/
theorem parse_make_token (digest : String → String) (s : String) (hs : '|' ∉ s.data)
    (t tv : Nat) (hwin : tv ≤ t + 86400)
    (hg : '|' ∉ (digest (s ++ "|" ++ natToDecimal (t + 86400))).data) :
    parse_token digest (make_token digest s t) tv = some s := by
  rw [make_token_eq,
      parse_token_parts digest s (natToDecimal (t + 86400))
        (digest (s ++ "|" ++ natToDecimal (t + 86400))) tv hs (natToDecimal_no_bar _) hg,
      if_pos rfl, pyInt_natToDecimal]
  have hlt : ¬ (((t + 86400 : Nat) : Int) < (tv : Int)) := by omega
  show (if ((t + 86400 : Nat) : Int) < (tv : Int) then (none : Option String)
        else some s) = some s
  rw [if_neg hlt]

/-- C1: for every subject id that is a non-empty string not containing the
delimiter, and every verification time within the 24-hour validity window of
issuance (same digest, i.e. same Secret, at issue and verify), verifying the
issued credential succeeds and returns exactly the subject id, unmodified.
The hypothesis `hg` records that the hex digest contains no delimiter. -/
theorem C1_issue_verify_roundtrip (digest : String → String) (s : String)
    (hne : s ≠ "") (hs : '|' ∉ s.data) (t tv : Nat) (hwin : tv ≤ t + 86400)
    (hg : '|' ∉ (digest (s ++ "|" ++ natToDecimal (t + 86400))).data) :
    parse_token digest (make_token digest s t) tv = some s :=
  parse_make_token digest s hs t tv hwin hg

/-- Witness for C1: subject `"u123"` issued at time `100`, verified at time
`50000`, under a digest that always answers `"sig"`. -/
theorem C1_witness :
    parse_token (fun _ => "sig") (make_token (fun _ => "sig") "u123" 100) 50000 =
      some "u123" :=
  C1_issue_verify_roundtrip (fun _ => "sig") "u123" (by decide) (by decide) 100 50000
    (by omega) (by decide)

/-- C2 fails as stated: a credential whose expiry equals the current time is
accepted (the source rejects only `expiry < now`), so verification does not
fail with `Expired` at `expiry = now` and success does not require
`expiry > now`. -/
theorem C2_counterexample_boundary :
    pyInt "5" = some 5 ∧
    parse_token (fun _ => "g") "u|5|g" 5 = some "u" ∧
    parse_token_kind (fun _ => "g") "u|5|g" 5 = VerifyResult.ok "u" := by decide

/-- C2 amended: on a credential that passes the structural and signature
checks and whose expiry parses to `ev`, verification fails with `Expired`
exactly when `ev < now`, and succeeds with the subject id exactly when
`now ≤ ev`; the boundary `ev = now` is accepted. -/
theorem C2_expired_iff_lt (digest : String → String) (u e g : String) (now : Nat)
    (ev : Int) (hu : '|' ∉ u.data) (he : '|' ∉ e.data) (hg : '|' ∉ g.data)
    (hsig : digest (u ++ "|" ++ e) = g) (hpe : pyInt e = some ev) :
    parse_token_kind digest (u ++ "|" ++ e ++ "|" ++ g) now =
      if ev < (now : Int) then VerifyResult.expired else VerifyResult.ok u := by
  rw [parse_token_kind_parts digest u e g now hu he hg, if_pos hsig, hpe]

/-- Witness for the amended C2 at a stale credential. -/
theorem C2_expired_iff_lt_witness :
    parse_token_kind (fun _ => "g") ("u" ++ "|" ++ "7" ++ "|" ++ "g") 9 =
      if (7 : Int) < ((9 : Nat) : Int) then VerifyResult.expired
      else VerifyResult.ok "u" :=
  C2_expired_iff_lt (fun _ => "g") "u" "7" "g" 9 7 (by decide) (by decide) (by decide)
    (by decide) (by decide)

/-- C3 fails as stated: replacing a signature character of the previously
valid credential `"u|5|gg"` by the delimiter `'|'` (a different character)
makes the field count four, so verification fails with `Malformed`, not
`Tampered`. -/
theorem C3_counterexample_delimiter :
    parse_token (fun _ => "gg") ("u" ++ "|" ++ "5" ++ "|" ++ "gg") 1 = some "u" ∧
    "u" ++ "|" ++ "5" ++ "|" ++ String.mk ("gg".data.set 0 '|') = "u|5||g" ∧
    ('|' : Char) ≠ 'g' ∧
    parse_token_kind (fun _ => "gg") "u|5||g" 1 = VerifyResult.malformed ∧
    VerifyResult.malformed ≠ VerifyResult.tampered := by decide

/-- C3 amended: replacing one character of the signature segment of a
previously valid credential with a different character other than the
delimiter makes verification fail with `Tampered` (a replacement by the
delimiter fails with `Malformed` instead); in neither case is a subject id
returned. -/
theorem C3_tampered_on_sig_mutation (digest : String → String) (u e g : String)
    (now0 now : Nat) (ev : Int) (i : Nat) (c : Char)
    (hu : '|' ∉ u.data) (he : '|' ∉ e.data) (hg : '|' ∉ g.data)
    (hsig : digest (u ++ "|" ++ e) = g)
    (hpe : pyInt e = some ev) (hlive : ¬ ev < (now0 : Int))
    (hi : i < g.data.length) (hc : c ≠ g.data.get ⟨i, hi⟩) (hcb : c ≠ '|') :
    parse_token digest (u ++ "|" ++ e ++ "|" ++ g) now0 = some u ∧
    parse_token_kind digest (u ++ "|" ++ e ++ "|" ++ String.mk (g.data.set i c)) now =
      VerifyResult.tampered := by
  constructor
  · rw [parse_token_parts digest u e g now0 hu he hg, if_pos hsig, hpe]
    show (if ev < (now0 : Int) then (none : Option String) else some u) = some u
    rw [if_neg hlive]
  · have hg2 : '|' ∉ (String.mk (g.data.set i c)).data := by
      intro hm
      rcases List.mem_or_eq_of_mem_set hm with h | h
      · exact hg h
      · exact hcb h.symm
    have hne2 : digest (u ++ "|" ++ e) ≠ String.mk (g.data.set i c) := by
      intro hEq
      have hdata : g.data = g.data.set i c := by
        have := hsig.symm.trans hEq
        exact congrArg String.data this
      have hgot : g.data.get ⟨i, hi⟩ = c := by
        have hq := congrArg (fun l : List Char => l[i]?) hdata
        simp only at hq
        rw [List.getElem?_eq_getElem hi, List.getElem?_set_self hi] at hq
        rw [List.get_eq_getElem]
        exact Option.some.inj hq
      exact hc hgot.symm
    rw [parse_token_kind_parts digest u e (String.mk (g.data.set i c)) now hu he hg2,
        if_neg hne2]

/-- Witness for the amended C3: replace signature character 0 of the valid
credential `"u|9|AB"` by `'Z'`. -/
theorem C3_tampered_on_sig_mutation_witness :
    parse_token (fun _ => "AB") ("u" ++ "|" ++ "9" ++ "|" ++ "AB") 2 = some "u" ∧
    parse_token_kind (fun _ => "AB")
        ("u" ++ "|" ++ "9" ++ "|" ++ String.mk ("AB".data.set 0 'Z')) 4 =
      VerifyResult.tampered :=
  C3_tampered_on_sig_mutation (fun _ => "AB") "u" "9" "AB" 2 4 9 0 'Z' (by decide)
    (by decide) (by decide) (by decide) (by decide) (by decide) (by decide) (by decide)
    (by decide)

/-- C4: replacing the expiry segment of a previously valid credential with an
earlier, already stale value while keeping the old signature makes
verification fail with `Tampered`, not `Expired`: the signature comparison
is performed before the expiry parse and the staleness comparison.  The
hypothesis `hdiff` is collision freeness of the keyed digest on the two
payloads. -/
theorem C4_tampered_precedes_expired (digest : String → String) (u e e2 g : String)
    (now0 now : Nat) (ev ev2 : Int)
    (hu : '|' ∉ u.data) (he : '|' ∉ e.data) (he2 : '|' ∉ e2.data) (hg : '|' ∉ g.data)
    (hsig : digest (u ++ "|" ++ e) = g)
    (hpe : pyInt e = some ev) (hlive : ¬ ev < (now0 : Int))
    (hpe2 : pyInt e2 = some ev2) (hearlier : ev2 < ev) (hstale : ev2 < (now : Int))
    (hdiff : digest (u ++ "|" ++ e2) ≠ digest (u ++ "|" ++ e)) :
    parse_token digest (u ++ "|" ++ e ++ "|" ++ g) now0 = some u ∧
    parse_token_kind digest (u ++ "|" ++ e2 ++ "|" ++ g) now = VerifyResult.tampered := by
  constructor
  · rw [parse_token_parts digest u e g now0 hu he hg, if_pos hsig, hpe]
    show (if ev < (now0 : Int) then (none : Option String) else some u) = some u
    rw [if_neg hlive]
  · rw [parse_token_kind_parts digest u e2 g now hu he2 hg,
        if_neg (fun hEq => hdiff (hEq.trans hsig.symm))]

/-- Witness for C4: credential `"u|9|A"` valid at time 2; rewriting the
expiry to the stale `"3"` under a digest distinguishing the two payloads
yields `Tampered` at time 5. -/
theorem C4_tampered_precedes_expired_witness :
    parse_token (fun p => if p = "u|9" then "A" else "B")
        ("u" ++ "|" ++ "9" ++ "|" ++ "A") 2 = some "u" ∧
    parse_token_kind (fun p => if p = "u|9" then "A" else "B")
        ("u" ++ "|" ++ "3" ++ "|" ++ "A") 5 = VerifyResult.tampered :=
  C4_tampered_precedes_expired (fun p => if p = "u|9" then "A" else "B") "u" "9" "3" "A"
    2 5 9 3 (by decide) (by decide) (by decide) (by decide) (by decide) (by decide)
    (by decide) (by decide) (by decide) (by decide) (by decide)

/-- C5: any input string whose split on the delimiter yields fewer or more
than exactly three segments is rejected as `Malformed` (the caught unpacking
error), regardless of the segments' contents, and the caller sees `None`. -/
theorem C5_malformed_field_count (digest : String → String) (token : String) (now : Nat)
    (h : (splitOnChar '|' token.data).length ≠ 3) :
    parse_token_kind digest token now = VerifyResult.malformed ∧
    parse_token digest token now = none := by
  refine ⟨parse_token_kind_malformed_of_length digest token now h, ?_⟩
  rw [parse_token_eq_toOption, parse_token_kind_malformed_of_length digest token now h]
  rfl

/-- Witness for C5 on a one-segment input. -/
theorem C5_malformed_field_count_witness :
    parse_token_kind (fun _ => "g") "abc" 0 = VerifyResult.malformed ∧
    parse_token (fun _ => "g") "abc" 0 = none :=
  C5_malformed_field_count (fun _ => "g") "abc" 0 (by decide)

/-- C6: a credential issued at time `t` for a valid (non-empty,
delimiter-free) subject id fails with `Expired` when verified at
`t + 24h + 1s` with the same digest. -/
theorem C6_expired_after_window (digest : String → String) (s : String)
    (hne : s ≠ "") (hs : '|' ∉ s.data) (t : Nat)
    (hg : '|' ∉ (digest (s ++ "|" ++ natToDecimal (t + 86400))).data) :
    parse_token_kind digest (make_token digest s t) (t + 86401) =
      VerifyResult.expired ∧
    parse_token digest (make_token digest s t) (t + 86401) = none := by
  have hk : parse_token_kind digest (make_token digest s t) (t + 86401) =
      VerifyResult.expired := by
    rw [make_token_eq,
        parse_token_kind_parts digest s (natToDecimal (t + 86400))
          (digest (s ++ "|" ++ natToDecimal (t + 86400))) (t + 86401) hs
          (natToDecimal_no_bar _) hg,
        if_pos rfl, pyInt_natToDecimal]
    have hlt : ((t + 86400 : Nat) : Int) < ((t + 86401 : Nat) : Int) := by omega
    show (if ((t + 86400 : Nat) : Int) < ((t + 86401 : Nat) : Int) then
            VerifyResult.expired
          else VerifyResult.ok s) = VerifyResult.expired
    rw [if_pos hlt]
  refine ⟨hk, ?_⟩
  rw [parse_token_eq_toOption, hk]
  rfl

/-- Witness for C6: subject `"u123"` issued at time `7`, verified one second
past its window. -/
theorem C6_expired_after_window_witness :
    parse_token_kind (fun _ => "sig") (make_token (fun _ => "sig") "u123" 7) (7 + 86401) =
      VerifyResult.expired ∧
    parse_token (fun _ => "sig") (make_token (fun _ => "sig") "u123" 7) (7 + 86401) =
      none :=
  C6_expired_after_window (fun _ => "sig") "u123" (by decide) (by decide) 7 (by decide)

/-- C7 fails as stated: `parse_token` returns the very same `None` for a
malformed input, a tampered input, and an expired input, so the three error
kinds are not distinguishable in the value `verify` returns to its direct
caller. -/
theorem C7_counterexample_collapse :
    parse_token_kind (fun _ => "gg") "nodelim" 0 = VerifyResult.malformed ∧
    parse_token_kind (fun _ => "gg") "u|5|xx" 0 = VerifyResult.tampered ∧
    parse_token_kind (fun _ => "gg") "u|5|gg" 7 = VerifyResult.expired ∧
    parse_token (fun _ => "gg") "nodelim" 0 = none ∧
    parse_token (fun _ => "gg") "u|5|xx" 0 = none ∧
    parse_token (fun _ => "gg") "u|5|gg" 7 = none := by decide

/-- C7 amended: whichever of the three checks fails, `parse_token` returns
the single undifferentiated value `None`; the failure kinds are
distinguishable only by which internal check fired, not in the returned
value. -/
theorem C7_failures_return_none (digest : String → String) (token : String) (now : Nat)
    (h : parse_token_kind digest token now = VerifyResult.malformed ∨
         parse_token_kind digest token now = VerifyResult.tampered ∨
         parse_token_kind digest token now = VerifyResult.expired) :
    parse_token digest token now = none := by
  rw [parse_token_eq_toOption]
  rcases h with h | h | h <;> rw [h] <;> rfl

/-- Witness for the amended C7 on a malformed input. -/
theorem C7_failures_return_none_witness :
    parse_token (fun _ => "g") "z" 0 = none :=
  C7_failures_return_none (fun _ => "g") "z" 0 (Or.inl (by decide))

/-- C8: issuing for the same delimiter-free subject id at two different
times yields two different credential strings, and each one is accepted
(with the same digest) at any time within its own validity window. -/
theorem C8_distinct_issuances (digest : String → String) (s : String)
    (hne : s ≠ "") (hs : '|' ∉ s.data) (t1 t2 tv1 tv2 : Nat) (ht : t1 ≠ t2)
    (hw1 : tv1 ≤ t1 + 86400) (hw2 : tv2 ≤ t2 + 86400)
    (hg1 : '|' ∉ (digest (s ++ "|" ++ natToDecimal (t1 + 86400))).data)
    (hg2 : '|' ∉ (digest (s ++ "|" ++ natToDecimal (t2 + 86400))).data) :
    make_token digest s t1 ≠ make_token digest s t2 ∧
    parse_token digest (make_token digest s t1) tv1 = some s ∧
    parse_token digest (make_token digest s t2) tv2 = some s := by
  refine ⟨?_, parse_make_token digest s hs t1 tv1 hw1 hg1,
    parse_make_token digest s hs t2 tv2 hw2 hg2⟩
  intro hEq
  have h1 : splitOnChar '|' (make_token digest s t1).data =
      [s.data, (natToDecimal (t1 + 86400)).data,
        (digest (s ++ "|" ++ natToDecimal (t1 + 86400))).data] := by
    rw [make_token_eq]
    exact splitOnChar_three s _ _ hs (natToDecimal_no_bar _) hg1
  have h2 : splitOnChar '|' (make_token digest s t2).data =
      [s.data, (natToDecimal (t2 + 86400)).data,
        (digest (s ++ "|" ++ natToDecimal (t2 + 86400))).data] := by
    rw [make_token_eq]
    exact splitOnChar_three s _ _ hs (natToDecimal_no_bar _) hg2
  rw [hEq] at h1
  have h3 := h2.symm.trans h1
  simp only [List.cons.injEq, and_true] at h3
  have heq : natToDecimal (t2 + 86400) = natToDecimal (t1 + 86400) := by
    rw [← mk_data (natToDecimal (t2 + 86400)), h3.2.1, mk_data]
  have := natToDecimal_inj _ _ heq
  omega

/-- Witness for C8 at issue times `5` and `9`. -/
theorem C8_distinct_issuances_witness :
    make_token (fun _ => "sig") "u123" 5 ≠ make_token (fun _ => "sig") "u123" 9 ∧
    parse_token (fun _ => "sig") (make_token (fun _ => "sig") "u123" 5) 4000 =
      some "u123" ∧
    parse_token (fun _ => "sig") (make_token (fun _ => "sig") "u123" 9) 80000 =
      some "u123" :=
  C8_distinct_issuances (fun _ => "sig") "u123" (by decide) (by decide) 5 9 4000 80000
    (by decide) (by omega) (by omega) (by decide) (by decide)

/-- C9: `parse_token` is total — on any input it returns either a subject id
or the typed negative result `None`, never propagating an exception — and a
structurally valid, correctly signed credential whose expiry field is not
parseable as an integer is rejected as `Malformed` (the caught `ValueError`
of `int`), not a crash. -/
theorem C9_total_and_unparseable_expiry (digest : String → String) (u e g : String)
    (now : Nat) (hu : '|' ∉ u.data) (he : '|' ∉ e.data) (hg : '|' ∉ g.data)
    (hsig : digest (u ++ "|" ++ e) = g) (hpe : pyInt e = none) :
    parse_token_kind digest (u ++ "|" ++ e ++ "|" ++ g) now = VerifyResult.malformed ∧
    parse_token digest (u ++ "|" ++ e ++ "|" ++ g) now = none ∧
    ∀ t' : String, parse_token digest t' now = none ∨
      ∃ s : String, parse_token digest t' now = some s := by
  have hk : parse_token_kind digest (u ++ "|" ++ e ++ "|" ++ g) now =
      VerifyResult.malformed := by
    rw [parse_token_kind_parts digest u e g now hu he hg, if_pos hsig, hpe]
  refine ⟨hk, ?_, ?_⟩
  · rw [parse_token_eq_toOption, hk]
    rfl
  · intro t'
    rcases hopt : parse_token digest t' now with _ | s
    · exact Or.inl rfl
    · exact Or.inr ⟨s, rfl⟩

/-- Witness for C9 on the unparseable expiry field `"zz"`. -/
theorem C9_total_and_unparseable_expiry_witness :
    parse_token_kind (fun _ => "s") ("u" ++ "|" ++ "zz" ++ "|" ++ "s") 0 =
      VerifyResult.malformed ∧
    parse_token (fun _ => "s") ("u" ++ "|" ++ "zz" ++ "|" ++ "s") 0 = none ∧
    ∀ t' : String, parse_token (fun _ => "s") t' 0 = none ∨
      ∃ s : String, parse_token (fun _ => "s") t' 0 = some s :=
  C9_total_and_unparseable_expiry (fun _ => "s") "u" "zz" "s" 0 (by decide) (by decide)
    (by decide) (by decide) (by decide)

/-- C10: when the subject id contains the delimiter, `make_token` still
produces a credential string, but that string has more than three delimited
segments, so verification rejects it as `Malformed` instead of returning the
subject id: the round trip fails exactly because the no-delimiter
precondition is violated. -/
theorem C10_delimiter_in_subject (digest : String → String) (s : String)
    (hmem : '|' ∈ s.data) (t tv : Nat) :
    3 < (splitOnChar '|' (make_token digest s t).data).length ∧
    parse_token_kind digest (make_token digest s t) tv = VerifyResult.malformed ∧
    parse_token digest (make_token digest s t) tv = none := by
  have hcount : 0 < s.data.count '|' := List.count_pos_iff.2 hmem
  have hlen : 3 < (splitOnChar '|' (make_token digest s t).data).length := by
    rw [make_token_eq, splitOnChar_length, three_field_data]
    simp [List.count_append, List.count_cons]
    omega
  have hk : parse_token_kind digest (make_token digest s t) tv =
      VerifyResult.malformed :=
    parse_token_kind_malformed_of_length digest _ tv (by omega)
  refine ⟨hlen, hk, ?_⟩
  rw [parse_token_eq_toOption, hk]
  rfl

/-- Witness for C10 at the subject `"a|b"`. -/
theorem C10_delimiter_in_subject_witness :
    3 < (splitOnChar '|' (make_token (fun _ => "sig") "a|b" 3).data).length ∧
    parse_token_kind (fun _ => "sig") (make_token (fun _ => "sig") "a|b" 3) 3 =
      VerifyResult.malformed ∧
    parse_token (fun _ => "sig") (make_token (fun _ => "sig") "a|b" 3) 3 = none :=
  C10_delimiter_in_subject (fun _ => "sig") "a|b" (by decide) 3 3

end TokenAuth
